import Mathlib

/-!
Shallow embedding of the water phase-equilibrium simulator (the `nuklear`
repository): the linear interpolation tables, the `Water` substance model and
the `WaterContainer` phase-equilibrium solver.

Floating-point scalars of the source are modelled as exact rationals (`ℚ`);
the partial operations of the source (assertion failures / panics) are
modelled as `Option`-valued functions where `none` is a panic, and the one
domain error `Error::NonPositiveTemperature` as an `Except` value.  All
quantities are kept in SI coherent units (kg, K, Pa, m³, J), with the unit
conversions the `uom` crate performs written out explicitly (°C = K − 273.15,
1 g/cm³ = 1000 kg/m³, 1 mbar = 100 Pa, 1 J/g = 1000 J/kg).
-/

/-- Models `Error` from `src/error.rs`, restricted to the variant the water
model can produce. -/
inductive WaterError where
  | nonPositiveTemperature
deriving DecidableEq

/-! ## Interpolation table (`src/interpolation_table/mod.rs`) -/

/-- Models `LimitBehaviour`. -/
inductive LimitBehaviour where
  | clamp
  | panic
deriving DecidableEq

/-- Models `LinearInterpolationTable`: a list of (key, value) pairs together
with the out-of-domain policy. -/
structure LinearInterpolationTable where
  limitBehaviour : LimitBehaviour
  table : List (ℚ × ℚ)

/-- Models `slice::binary_search_by` over the (sorted) key column, by its
documented contract on sorted slices: `.ok i` when the key at index `i`
compares equal to `x`, and `.error i` with `i` the insertion index otherwise.
On a strictly increasing key list both are realised by counting the keys
strictly below `x`. -/
def searchSorted (keys : List ℚ) (x : ℚ) : Except Nat Nat :=
  let i := keys.countP (fun k => decide (k < x))
  match keys.get? i with
  | some k => if k = x then .ok i else .error i
  | none => .error i

/-- Models the binary-search-and-interpolate tail of
`LinearInterpolationTable::get` (the part after the limit-behaviour handling):
exact key match returns the stored value, otherwise the two bracketing pairs
are combined linearly.  The index assertions of the source become the `none`
cases. -/
def interpolateSearch (tab : List (ℚ × ℚ)) (x : ℚ) : Option ℚ :=
  match searchSorted (tab.map Prod.fst) x with
  | .ok i => (tab.get? i).map Prod.snd
  | .error i =>
    if 0 < i ∧ i < tab.length then
      match tab.get? (i - 1), tab.get? i with
      | some (key1, value1), some (key2, value2) =>
        some (((key2 - x) * value1 + (x - key1) * value2) / (key2 - key1))
      | _, _ => none
    else none

/-- Models `LinearInterpolationTable::get`.  The source's
`assert!(x.is_normal() || x == 0.0 || x == -0.0)` excludes only non-finite and
subnormal floats, which have no counterpart in `ℚ`; every rational models a
finite, non-subnormal value, so the assertion is vacuous here.  `none` models
a panic (empty table, `Panic` policy out of domain, or a failed index
assertion). -/
def LinearInterpolationTable.get (t : LinearInterpolationTable) (x : ℚ) : Option ℚ :=
  match t.table with
  | [] => none
  | first :: rest =>
    let last := rest.getLastD first
    match t.limitBehaviour with
    | .clamp =>
      if x < first.1 then some first.2
      else if last.1 < x then some last.2
      else interpolateSearch (first :: rest) x
    | .panic =>
      if x < first.1 ∨ last.1 < x then none
      else interpolateSearch (first :: rest) x

/-- Models `LinearInterpolationTable::new`: panics unless the pair list is
non-empty with strictly increasing keys. -/
def LinearInterpolationTable.new (limitBehaviour : LimitBehaviour)
    (table : List (ℚ × ℚ)) : Option LinearInterpolationTable :=
  if table ≠ [] ∧ table.Chain' (fun a b => a.1 < b.1) then
    some ⟨limitBehaviour, table⟩
  else none

/-! ## Equation-of-state tables (`src/substance/water.rs`, `mod constants`) -/

/-- Models `DENSITY_BY_TEMPERATURE`: Celsius → g/cm³. -/
def DENSITY_BY_TEMPERATURE : LinearInterpolationTable :=
  ⟨.clamp, [
    (0, 0.9998395),
    (3.984, 0.999972),
    (4.0, 0.999972),
    (5.0, 0.99996),
    (10.0, 0.9997026),
    (15.0, 0.9991026),
    (20.0, 0.9982071),
    (22.0, 0.9977735),
    (25.0, 0.9970479),
    (30.0, 0.9956502),
    (35.0, 0.99403),
    (40.0, 0.99221),
    (45.0, 0.99022),
    (50.0, 0.98804),
    (55.0, 0.98570),
    (60.0, 0.98321),
    (65.0, 0.98056),
    (70.0, 0.97778),
    (75.0, 0.97486),
    (80.0, 0.97180),
    (85.0, 0.96862),
    (90.0, 0.96531),
    (95.0, 0.96189),
    (100.0, 0.95835),
    (120.0, 0.9435),
    (140.0, 0.9262),
    (160.0, 0.9075),
    (180.0, 0.887),
    (200.0, 0.8647),
    (225.0, 0.8338),
    (250.0, 0.799),
    (275.0, 0.7591),
    (300.0, 0.7122),
    (350.0, 0.581),
    (373.0, 0.4434),
    (373.946, 0.3888),
    (400.0, 0.1222),
    (450.0, 0.09043),
    (500.0, 0.0765),
    (600.0, 0.06145),
    (700.0, 0.0526),
    (800.0, 0.04645),
    (900.0, 0.0418),
    (1000.0, 0.0381),
    (2000.0, 0.02085)]⟩

/-- Models `BOILING_POINT_BY_PRESSURE_RAW`: mbar → Celsius. -/
def BOILING_POINT_BY_PRESSURE_RAW : List (ℚ × ℚ) := [
  (0.003, -68.0),
  (0.017, -57.0),
  (0.03, -51.0),
  (0.07, -46.0),
  (0.13, -40.0),
  (0.17, -37.0),
  (0.34, -31.0),
  (0.4, -29.0),
  (0.67, -24.0),
  (1.33, -17.0),
  (1.69, -14.0),
  (3.39, -6.0),
  (6.1, 0.0),
  (10.16, 7.0),
  (13.55, 12.0),
  (16.93, 15.0),
  (20.32, 18.0),
  (23.71, 21.0),
  (27.09, 22.0),
  (30.48, 24.0),
  (33.86, 27.0),
  (42.33, 30.0),
  (73.48, 40.0),
  (123.3, 50.0),
  (133.3, 52.0),
  (199.1, 60.0),
  (266.6, 67.0),
  (311.5, 70.0),
  (473.4, 80.0),
  (666.6, 89.0),
  (700.6, 90.0),
  (846.6, 96.0),
  (1014.2, 100.3),
  (1433.8, 110.0),
  (1986.7, 120.0),
  (2702.8, 130.0),
  (3615.4, 140.0),
  (4761.6, 150.0),
  (6182.3, 160.0),
  (10028.0, 180.0),
  (15549.0, 200.0),
  (23196.0, 220.0),
  (33469.0, 240.0),
  (46923.0, 260.0),
  (64166.0, 280.0),
  (85879.0, 300.0),
  (112840.0, 320.0),
  (146010.0, 340.0),
  (186660.0, 360.0),
  (210440.0, 370.0),
  (210441.0, 1e50)]

/-- Models `BOILING_POINT_BY_PRESSURE`. -/
def BOILING_POINT_BY_PRESSURE : LinearInterpolationTable :=
  ⟨.clamp, BOILING_POINT_BY_PRESSURE_RAW⟩

/-- Models `SATURATION_PRESSURE_BY_TEMPERATURE`: the boiling curve with key
and value columns swapped (Celsius → mbar). -/
def SATURATION_PRESSURE_BY_TEMPERATURE : LinearInterpolationTable :=
  ⟨.clamp, BOILING_POINT_BY_PRESSURE_RAW.map (fun pt => (pt.2, pt.1))⟩

/-! ## Physical constants (`src/substance/water.rs`) -/

/-- Models `heat_capacity()`: 4180 J/(kg·K). -/
def heat_capacity : ℚ := 4180

/-- Models `phase_change_energy()`: 2230 J/g, in SI units 2230000 J/kg. -/
def phase_change_energy : ℚ := 2230000

/-- Models `SPECIAL_IDEAL_GAS_CONSTANT`: 461.5 J/(kg·K), the gas constant
scaled for the molar mass of water. -/
def SPECIAL_IDEAL_GAS_CONSTANT : ℚ := 461.5

/-- Kelvin → Celsius, the conversion `temperature.get::<degree_celsius>()`
performed by the `uom` crate. -/
def toCelsius (temperatureKelvin : ℚ) : ℚ := temperatureKelvin - 273.15

/-- Models `density_by_temperature`: Kelvin in, kg/m³ out (the table stores
g/cm³ = 1000 kg/m³).  The lookup on this constant clamped table cannot fail;
the `getD 0` unwraps it. -/
def density_by_temperature (temperature : ℚ) : ℚ :=
  1000 * (DENSITY_BY_TEMPERATURE.get (toCelsius temperature)).getD 0

/-- Models `saturation_pressure_by_temperature`: Kelvin in, Pa out (the table
stores millibar = 100 Pa). -/
def saturation_pressure_by_temperature (temperature : ℚ) : ℚ :=
  100 * (SATURATION_PRESSURE_BY_TEMPERATURE.get (toCelsius temperature)).getD 0

/-! ## Water substance model (`src/substance/water.rs`) -/

/-- Models `Water`: mass in kg, temperature in K. -/
structure Water where
  mass : ℚ
  temperature : ℚ
deriving DecidableEq

/-- Models `Water::zero()`. -/
def Water.zero : Water := ⟨0, 0⟩

/-- Models `impl Add<Energy> for Water`: shifts the temperature by
`energy / heat_capacity / mass`. -/
def Water.addEnergy (w : Water) (energy : ℚ) : Water :=
  ⟨w.mass, w.temperature + energy / heat_capacity / w.mass⟩

/-- Models `impl Sub<Energy> for Water`: `self + (-rhs)`. -/
def Water.subEnergy (w : Water) (energy : ℚ) : Water :=
  w.addEnergy (-energy)

/-- Models `impl Sub<Mass> for Water`, wrapped by `SubAssign` with
`assert!(rhs <= self.mass)`; `none` is the assertion failure. -/
def Water.subMass (w : Water) (mass : ℚ) : Option Water :=
  if mass ≤ w.mass then some ⟨w.mass - mass, w.temperature⟩ else none

/-- Models `impl Add for Water`: masses add, the temperature is the
mass-weighted average when the combined mass is positive and the zero
sentinel otherwise. -/
def Water.add (w rhs : Water) : Water :=
  let mass := w.mass + rhs.mass
  let temperature :=
    if 0 < mass then (w.mass * w.temperature + rhs.mass * rhs.temperature) / mass
    else 0
  ⟨mass, temperature⟩

instance : Add Water := ⟨Water.add⟩

/-- Models `Water::remove`: split off `mass` at the current temperature.  The
source asserts only `mass <= self.mass` (there is no lower-bound assertion);
`none` is that assertion failure.  Returns the mutated self paired with the
removed quantity. -/
def Water.remove (w : Water) (mass : ℚ) : Option (Water × Water) :=
  if mass ≤ w.mass then
    some (⟨w.mass - mass, w.temperature⟩, ⟨mass, w.temperature⟩)
  else none

/-- Models `Water::volume`: `mass / density_by_temperature(temperature)`. -/
def Water.volume (w : Water) : ℚ :=
  w.mass / density_by_temperature w.temperature

/-- Models `Water::pressure`: ideal gas law `p = m·R′·T / V`. -/
def Water.pressure (w : Water) (volume : ℚ) : ℚ :=
  w.mass * SPECIAL_IDEAL_GAS_CONSTANT * w.temperature / volume

/-- Models `Water::saturation_pressure`. -/
def Water.saturation_pressure (w : Water) : ℚ :=
  saturation_pressure_by_temperature w.temperature

/-- Models `Water::evaporate`: asserts `0 ≤ mass ≤ self.mass` (`none` on
failure), subtracts the phase-change energy from the whole body, fails with
`NonPositiveTemperature` when the cooled temperature is ≤ 0 K leaving self
untouched, and otherwise commits the cooled state minus the mass and returns
the departed quantity at the cooled temperature.  The result pairs the final
state of `self` with the `Result` value. -/
def Water.evaporate (w : Water) (mass : ℚ) :
    Option (Water × Except WaterError Water) :=
  if 0 ≤ mass ∧ mass ≤ w.mass then
    let cooledSelf := w.subEnergy (phase_change_energy * mass)
    if cooledSelf.temperature ≤ 0 then
      some (w, .error .nonPositiveTemperature)
    else
      match cooledSelf.subMass mass with
      | some w' => some (w', .ok ⟨mass, w'.temperature⟩)
      | none => none
  else none

/-- Models `Water::condensate`: asserts `0 ≤ mass ≤ self.mass`, deposits the
phase-change energy into self, removes the mass, and returns the departed
quantity at the heated temperature.  Pairs the final self with the result. -/
def Water.condensate (w : Water) (mass : ℚ) : Option (Water × Water) :=
  if 0 ≤ mass ∧ mass ≤ w.mass then
    match (w.addEnergy (phase_change_energy * mass)).subMass mass with
    | some w' => some (w', ⟨mass, w'.temperature⟩)
    | none => none
  else none

/-- Models `Water::simultaneous_mass_exchange`: remove the outgoing mass from
self and the incoming mass from other, each at its own temperature, then mix
the removed quantities into the opposite bodies.  Returns the final
(self, other) pair; `none` is a panic in either removal. -/
def Water.simultaneous_mass_exchange (w other : Water)
    (outgoingMass incomingMass : ℚ) : Option (Water × Water) :=
  match w.remove outgoingMass, other.remove incomingMass with
  | some (w', outgoingWater), some (other', incomingWater) =>
    some (w' + incomingWater, other' + outgoingWater)
  | _, _ => none

/-! ## Water container (`src/container/mod.rs`) -/

/-- Models `PhaseEquillibrium` (source spelling). -/
structure PhaseEquillibrium where
  should_condensate : Bool
  should_evaporate : Bool
deriving DecidableEq

/-- Models `WaterContainer`: fixed volume (m³) and surface area (m²) with a
liquid and a vapor `Water` body. -/
structure WaterContainer where
  volume : ℚ
  surface_area : ℚ
  water : Water
  steam : Water
deriving DecidableEq

/-- Models `WaterContainer::water_volume`. -/
def WaterContainer.water_volume (c : WaterContainer) : ℚ :=
  c.water.volume

/-- Models `WaterContainer::steam_volume`: total volume minus liquid
volume. -/
def WaterContainer.steam_volume (c : WaterContainer) : ℚ :=
  c.volume - c.water_volume

/-- Models `WaterContainer::pressure`: ideal-gas pressure of the steam in the
volume left by the water. -/
def WaterContainer.pressure (c : WaterContainer) : ℚ :=
  c.steam.pressure c.steam_volume

/-- Models the private `WaterContainer::evaporate`: asserts
`0 ≤ mass ≤ water.mass` (`none` on failure), evaporates from the water and
adds the departed quantity to the steam.  On the domain error the container
is unchanged (the inner `Water::evaporate` mutates nothing on failure), so
only the error is returned. -/
def WaterContainer.evaporate (c : WaterContainer) (mass : ℚ) :
    Option (Except WaterError WaterContainer) :=
  if 0 ≤ mass ∧ mass ≤ c.water.mass then
    match c.water.evaporate mass with
    | none => none
    | some (_, .error e) => some (.error e)
    | some (water', .ok additionalSteam) =>
      some (.ok { c with water := water', steam := c.steam + additionalSteam })
  else none

/-- Models the private `WaterContainer::condensate`: asserts
`0 ≤ mass ≤ steam.mass`, condensates from the steam and adds the departed
quantity to the water. -/
def WaterContainer.condensate (c : WaterContainer) (mass : ℚ) :
    Option WaterContainer :=
  if 0 ≤ mass ∧ mass ≤ c.steam.mass then
    match c.steam.condensate mass with
    | some (steam', additionalWater) =>
      some { c with water := c.water + additionalWater, steam := steam' }
    | none => none
  else none

/-- Models `WaterContainer::phase_equillibrium` (source spelling): no flags
when both phases are empty; forced condensation when the steam volume is
negative (`is_sign_negative`); otherwise the pressure comparisons against the
two saturation pressures. -/
def WaterContainer.phase_equillibrium (c : WaterContainer) : PhaseEquillibrium :=
  if c.steam.mass = 0 ∧ c.water.mass = 0 then
    ⟨false, false⟩
  else if c.steam_volume < 0 then
    ⟨true, false⟩
  else
    ⟨decide (c.steam.saturation_pressure < c.pressure),
     decide (c.pressure < c.water.saturation_pressure)⟩

/-- The bisection convergence tolerance `Mass::new::<kilogram>(1e-10)`. -/
def bisectionTolerance : ℚ := 1e-10

/-- Models one of the two `while (right - left) > tolerance` bisection loops
of `WaterContainer::evaporate_condensate`, parameterised by the speculative
trial on the midpoint: `test m = some true` moves `left` up to the midpoint,
`some false` moves `right` down to it, and `none` is a panic inside the
trial.  The loop is written with explicit fuel; `none` at fuel 0 with the
loop condition still true marks non-termination within the fuel, which
`sufficientFuel` below rules out.  The `l < r` guard is the
`assert!(right > left)` of the source. -/
def bisectLoop (test : ℚ → Option Bool) : Nat → ℚ → ℚ → Option (ℚ × ℚ)
  | 0, l, r => if bisectionTolerance < r - l then none else some (l, r)
  | n + 1, l, r =>
    if bisectionTolerance < r - l then
      if l < r then
        match test ((r + l) / 2) with
        | none => none
        | some true => bisectLoop test n ((r + l) / 2) r
        | some false => bisectLoop test n l ((r + l) / 2)
      else none
    else some (l, r)

/-- The speculative evaporation trial of the first bisection loop: clone the
container, evaporate the candidate mass; an `Err` means search lower, a
success consults `should_evaporate` on the clone. -/
def evapTest (c : WaterContainer) (mass : ℚ) : Option Bool :=
  match c.evaporate mass with
  | none => none
  | some (.error _) => some false
  | some (.ok c') => some c'.phase_equillibrium.should_evaporate

/-- The speculative condensation trial of the second bisection loop: clone
the container, condensate the candidate mass, consult `should_condensate`. -/
def condTest (c : WaterContainer) (mass : ℚ) : Option Bool :=
  (c.condensate mass).map fun c' => c'.phase_equillibrium.should_condensate

/-- Fuel that suffices for a bisection starting from interval width `w`:
the width halves every iteration, so any `n` with `w ≤ tolerance * 2 ^ n`
works, and `(w / tolerance).num.toNat + 1` is such an `n`. -/
def sufficientFuel (w : ℚ) : Nat :=
  (w / bisectionTolerance).num.toNat + 1

/-- Models `WaterContainer::evaporate_condensate`: the incompressible
short-circuit when the steam volume is not positive, otherwise the clamped
linearised upper bounds, the two bisection searches, and the final committed
`simultaneous_mass_exchange`.  `none` models a panic somewhere inside. -/
def WaterContainer.evaporate_condensate (c : WaterContainer) :
    Option WaterContainer :=
  if c.steam_volume ≤ 0 then
    some { c with water := c.water + c.steam, steam := Water.zero }
  else
    let pressure := c.pressure
    let water_saturation_pressure := c.water.saturation_pressure
    let steam_saturation_pressure := c.steam.saturation_pressure
    let water_evaporation_potential :=
      (water_saturation_pressure - pressure) * c.steam_volume
    let steam_condensation_potential :=
      (pressure - steam_saturation_pressure) * c.steam_volume
    let water_evaporation_mass :=
      min (max (water_evaporation_potential /
        (SPECIAL_IDEAL_GAS_CONSTANT * c.water.temperature)) 0) c.water.mass
    let steam_condensation_mass :=
      min (max (steam_condensation_potential /
        (SPECIAL_IDEAL_GAS_CONSTANT * c.steam.temperature)) 0) c.steam.mass
    match bisectLoop (evapTest c) (sufficientFuel water_evaporation_mass)
        0 water_evaporation_mass with
    | none => none
    | some (l, r) =>
      match bisectLoop (condTest c) (sufficientFuel steam_condensation_mass)
          0 steam_condensation_mass with
      | none => none
      | some (l', r') =>
        match c.water.simultaneous_mass_exchange c.steam
            ((r + l) / 2) ((r' + l') / 2) with
        | none => none
        | some (water', steam') => some { c with water := water', steam := steam' }

/-- Any number of `evaporate_condensate` steps in sequence. -/
def WaterContainer.iterate_evaporate_condensate :
    Nat → WaterContainer → Option WaterContainer
  | 0, c => some c
  | n + 1, c => (c.evaporate_condensate).bind (iterate_evaporate_condensate n)

/-! ## Basic facts about `Water.add` -/

lemma Water.mass_add (a b : Water) : (a + b).mass = a.mass + b.mass := rfl

lemma Water.temperature_add (a b : Water) :
    (a + b).temperature =
      if 0 < a.mass + b.mass then
        (a.mass * a.temperature + b.mass * b.temperature) / (a.mass + b.mass)
      else 0 := rfl

lemma Water.add_comm' (a b : Water) : a + b = b + a := by
  show Water.add a b = Water.add b a
  unfold Water.add
  rw [Water.mk.injEq]
  constructor
  · rw [add_comm]
  · rw [add_comm b.mass a.mass, add_comm (b.mass * b.temperature)]

/-- Claim C8: `Water` addition is commutative; the result mass is the sum of
the masses; for a positive combined mass the result temperature is the
mass-weighted average of the input temperatures, and zero when the combined
mass is zero; adding the zero-mass `Water.zero` is the identity on any water
of positive mass. -/
theorem water_add_mixing_laws (a b : Water) :
    a + b = b + a ∧
    (a + b).mass = a.mass + b.mass ∧
    (0 < a.mass + b.mass →
      (a + b).temperature =
        (a.mass * a.temperature + b.mass * b.temperature) / (a.mass + b.mass)) ∧
    (a.mass + b.mass = 0 → (a + b).temperature = 0) ∧
    (0 < a.mass → a + Water.zero = a) := by
  refine ⟨Water.add_comm' a b, Water.mass_add a b, ?_, ?_, ?_⟩
  · intro h
    rw [Water.temperature_add, if_pos h]
  · intro h
    rw [Water.temperature_add, if_neg (by rw [h]; exact lt_irrefl 0)]
  · intro h
    show Water.add a Water.zero = a
    unfold Water.add Water.zero
    simp only [add_zero, zero_mul]
    rw [Water.mk.injEq]
    refine ⟨rfl, ?_⟩
    rw [if_pos h, mul_comm, mul_div_assoc, div_self (ne_of_gt h), mul_one]

/-- Witness for C8 at concrete inputs: the mass-weighted temperature of
mixing 2 kg at 300 K with 1 kg at 400 K, the zero-sentinel temperature for
two massless bodies, and the zero-mass identity. -/
theorem water_add_mixing_laws_witness :
    ((⟨2, 300⟩ : Water) + ⟨1, 400⟩).temperature = (2 * 300 + 1 * 400) / (2 + 1) ∧
    ((⟨0, 3⟩ : Water) + ⟨0, 7⟩).temperature = 0 ∧
    (⟨2, 300⟩ : Water) + Water.zero = ⟨2, 300⟩ := by
  refine ⟨(water_add_mixing_laws ⟨2, 300⟩ ⟨1, 400⟩).2.2.1 (by norm_num),
    (water_add_mixing_laws ⟨0, 3⟩ ⟨0, 7⟩).2.2.2.1 (by norm_num),
    (water_add_mixing_laws ⟨2, 300⟩ Water.zero).2.2.2.2 (by norm_num)⟩

/-- Counterexample to claim C9 as stated: `Water::remove` checks only the
upper bound `mass <= self.mass`, so the call with mass −1 kg on a 1 kg body
is not a fatal precondition violation: it proceeds, increasing `self` to 2 kg
and returning a quantity of mass −1 kg. -/
theorem water_remove_negative_not_fatal :
    Water.remove ⟨1, 300⟩ (-1) = some (⟨2, 300⟩, ⟨-1, 300⟩) := by
  norm_num [Water.remove]

/-- Claim C9 (amended): `Water::remove` asserts only `mass ≤ self.mass`:
any call with `mass ≤ self.mass` (including negative masses) proceeds,
splitting off the given mass at the current temperature, and any call with
`mass > self.mass` is a fatal assertion failure. -/
theorem water_remove_spec (w : Water) (m : ℚ) :
    (m ≤ w.mass →
      w.remove m = some (⟨w.mass - m, w.temperature⟩, ⟨m, w.temperature⟩)) ∧
    (w.mass < m → w.remove m = none) := by
  constructor
  · intro h
    rw [Water.remove, if_pos h]
  · intro h
    rw [Water.remove, if_neg (not_le.mpr h)]

/-- Witness for C9 (amended) at concrete inputs: removing 1/2 kg from a 1 kg
body succeeds, removing 2 kg from it panics. -/
theorem water_remove_spec_witness :
    Water.remove ⟨1, 300⟩ (1/2) = some (⟨1 - 1/2, 300⟩, ⟨1/2, 300⟩) ∧
    Water.remove ⟨1, 300⟩ 2 = none := by
  exact ⟨(water_remove_spec ⟨1, 300⟩ (1/2)).1 (by norm_num),
    (water_remove_spec ⟨1, 300⟩ 2).2 (by norm_num)⟩

/-! ## `Water::evaporate` semantics -/

/-- The cooled temperature after subtracting the phase-change energy of
`m` kilograms from the whole body. -/
lemma Water.subEnergy_phase_change (w : Water) (m : ℚ) :
    w.subEnergy (phase_change_energy * m) =
      ⟨w.mass, w.temperature - phase_change_energy * m / heat_capacity / w.mass⟩ := by
  unfold Water.subEnergy Water.addEnergy
  rw [Water.mk.injEq]
  exact ⟨rfl, by ring⟩

/-- Claim C10: `Water::evaporate` is atomic on failure: whenever it returns
the `NonPositiveTemperature` error, the final state of self equals the
initial state (the mutation happens only on the success path). -/
theorem water_evaporate_atomic_on_failure (w : Water) (m : ℚ) (w' : Water)
    (e : WaterError) (h : w.evaporate m = some (w', .error e)) : w' = w := by
  simp only [Water.evaporate] at h
  by_cases hc : 0 ≤ m ∧ m ≤ w.mass
  · rw [if_pos hc] at h
    by_cases ht : (w.subEnergy (phase_change_energy * m)).temperature ≤ 0
    · rw [if_pos ht] at h
      exact (congrArg Prod.fst (Option.some.inj h)).symm
    · rw [if_neg ht] at h
      rcases hsm : (w.subEnergy (phase_change_energy * m)).subMass m with _ | w2
      · rw [hsm] at h
        cases h
      · rw [hsm] at h
        exact Except.noConfusion (congrArg Prod.snd (Option.some.inj h))
  · rw [if_neg hc] at h
    cases h

/-- Witness for C10: evaporating the whole of a 1 kg body at 300 K fails
(the cooled temperature would be 300 − 2230000/4180 K < 0) and leaves the
body unchanged. -/
theorem water_evaporate_atomic_on_failure_witness :
    Water.evaporate ⟨1, 300⟩ 1 = some (⟨1, 300⟩, .error .nonPositiveTemperature) ∧
    (⟨1, 300⟩ : Water) = ⟨1, 300⟩ := by
  have h : Water.evaporate ⟨1, 300⟩ 1 =
      some (⟨1, 300⟩, .error .nonPositiveTemperature) := by
    norm_num [Water.evaporate, Water.subEnergy, Water.addEnergy,
      phase_change_energy, heat_capacity]
  exact ⟨h, water_evaporate_atomic_on_failure ⟨1, 300⟩ 1 ⟨1, 300⟩ _ h⟩

/-- Claim C4: for `0 ≤ mass ≤ self.mass`, `Water::evaporate` fails with
`NonPositiveTemperature` exactly when the temperature after subtracting
`mass * 2230000 J/kg` of energy at specific heat 4180 J/(kg·K) from the whole
body is ≤ 0 K; on success it returns the requested mass at the cooled
temperature and leaves self with its mass reduced at that same cooled
temperature.  `Water::condensate` (the only other phase-change operation)
never produces an error value. -/
theorem water_evaporate_spec (w : Water) (m : ℚ) (h0 : 0 ≤ m) (h1 : m ≤ w.mass) :
    (w.temperature - phase_change_energy * m / heat_capacity / w.mass ≤ 0 →
      w.evaporate m = some (w, .error .nonPositiveTemperature)) ∧
    (0 < w.temperature - phase_change_energy * m / heat_capacity / w.mass →
      w.evaporate m = some
        (⟨w.mass - m, w.temperature - phase_change_energy * m / heat_capacity / w.mass⟩,
         .ok ⟨m, w.temperature - phase_change_energy * m / heat_capacity / w.mass⟩)) ∧
    (∃ r, w.condensate m = some r) := by
  refine ⟨?_, ?_, ?_⟩
  · intro h
    unfold Water.evaporate
    rw [if_pos ⟨h0, h1⟩, Water.subEnergy_phase_change, if_pos h]
  · intro h
    unfold Water.evaporate
    rw [if_pos ⟨h0, h1⟩, Water.subEnergy_phase_change, if_neg (not_le.mpr h),
      Water.subMass, if_pos h1]
  · unfold Water.condensate
    rw [if_pos ⟨h0, h1⟩]
    unfold Water.addEnergy Water.subMass
    rw [if_pos h1]
    exact ⟨_, rfl⟩

/-- Witness for C4: for a 1 kg body at 300 K, evaporating the whole kilogram
fails (cooled temperature 300 − 2230000/4180 ≤ 0) while evaporating 0.1 kg
succeeds with cooled temperature 300 − 223000/4180 = 51550/209 K, and
condensation succeeds. -/
theorem water_evaporate_spec_witness :
    Water.evaporate ⟨1, 300⟩ 1 = some (⟨1, 300⟩, .error .nonPositiveTemperature) ∧
    Water.evaporate ⟨1, 300⟩ (1/10) = some
      (⟨1 - 1/10, 300 - phase_change_energy * (1/10) / heat_capacity / 1⟩,
       .ok ⟨1/10, 300 - phase_change_energy * (1/10) / heat_capacity / 1⟩) ∧
    (∃ r, Water.condensate ⟨1, 300⟩ (1/10) = some r) := by
  refine ⟨?_, ?_, ?_⟩
  · exact (water_evaporate_spec ⟨1, 300⟩ 1 (by norm_num) (by norm_num)).1
      (by norm_num [phase_change_energy, heat_capacity])
  · exact (water_evaporate_spec ⟨1, 300⟩ (1/10) (by norm_num) (by norm_num)).2.1
      (by norm_num [phase_change_energy, heat_capacity])
  · exact (water_evaporate_spec ⟨1, 300⟩ (1/10) (by norm_num) (by norm_num)).2.2

/-! ## Phase equilibrium decision -/

/-- A container whose water (at 2500 K, density clamped to the last table
entry 20.85 kg/m³) occupies exactly the whole container volume, so the steam
volume is exactly zero, with massless steam at 100 K. -/
def zeroSteamVolumeContainer : WaterContainer := ⟨1, 0, ⟨417/20, 2500⟩, ⟨0, 100⟩⟩

/-- Counterexample to claim C3 as stated: the forced-condensation branch
tests `is_sign_negative()`, i.e. strictly negative steam volume, not ≤ 0.
This container has steam volume exactly 0 yet `should_condensate = false`
(the claim requires `true` for every steam volume ≤ 0). -/
theorem phase_equillibrium_zero_steam_volume_counterexample :
    zeroSteamVolumeContainer.steam_volume ≤ 0 ∧
    zeroSteamVolumeContainer.steam_volume = 0 ∧
    zeroSteamVolumeContainer.phase_equillibrium.should_condensate = false := by
  norm_num [zeroSteamVolumeContainer, WaterContainer.phase_equillibrium,
    WaterContainer.steam_volume, WaterContainer.water_volume,
    WaterContainer.pressure, Water.pressure, Water.volume,
    Water.saturation_pressure, density_by_temperature,
    saturation_pressure_by_temperature, toCelsius, LinearInterpolationTable.get,
    DENSITY_BY_TEMPERATURE, SATURATION_PRESSURE_BY_TEMPERATURE,
    BOILING_POINT_BY_PRESSURE_RAW, List.getLastD]

/-- Claim C3 (amended): `phase_equillibrium()` returns both flags false when
both phases have zero mass; forces (condensate, no evaporation) when the
steam volume is strictly negative; and otherwise (steam volume ≥ 0) compares
the ideal-gas pressure with the two saturation pressures — so at steam volume
exactly 0 the comparison branch runs, not the forced-condensation branch. -/
theorem phase_equillibrium_spec (c : WaterContainer) :
    (c.steam.mass = 0 ∧ c.water.mass = 0 →
      c.phase_equillibrium = ⟨false, false⟩) ∧
    (¬(c.steam.mass = 0 ∧ c.water.mass = 0) → c.steam_volume < 0 →
      c.phase_equillibrium = ⟨true, false⟩) ∧
    (¬(c.steam.mass = 0 ∧ c.water.mass = 0) → 0 ≤ c.steam_volume →
      ((c.phase_equillibrium.should_condensate = true ↔
          c.steam.saturation_pressure < c.pressure) ∧
       (c.phase_equillibrium.should_evaporate = true ↔
          c.pressure < c.water.saturation_pressure))) := by
  refine ⟨?_, ?_, ?_⟩
  · intro h
    rw [WaterContainer.phase_equillibrium, if_pos h]
  · intro h hsv
    rw [WaterContainer.phase_equillibrium, if_neg h, if_pos hsv]
  · intro h hsv
    rw [WaterContainer.phase_equillibrium, if_neg h, if_neg (not_lt.mpr hsv)]
    exact ⟨decide_eq_true_iff, decide_eq_true_iff⟩

/-- Witness for C3 (amended), one instance per branch: an empty container,
a container with negative steam volume (overfull hot water), and the
zero-steam-volume comparison branch. -/
theorem phase_equillibrium_spec_witness :
    (⟨1, 0, ⟨0, 0⟩, ⟨0, 0⟩⟩ : WaterContainer).phase_equillibrium = ⟨false, false⟩ ∧
    (⟨1, 0, ⟨100, 2500⟩, ⟨1, 300⟩⟩ : WaterContainer).phase_equillibrium = ⟨true, false⟩ ∧
    (zeroSteamVolumeContainer.phase_equillibrium.should_condensate = true ↔
      zeroSteamVolumeContainer.steam.saturation_pressure < zeroSteamVolumeContainer.pressure) := by
  refine ⟨(phase_equillibrium_spec _).1 (by norm_num),
    (phase_equillibrium_spec _).2.1 (by norm_num) ?_,
    ((phase_equillibrium_spec zeroSteamVolumeContainer).2.2 (by
      norm_num [zeroSteamVolumeContainer]) (by
      norm_num [zeroSteamVolumeContainer, WaterContainer.steam_volume,
        WaterContainer.water_volume, Water.volume, density_by_temperature,
        toCelsius, LinearInterpolationTable.get, DENSITY_BY_TEMPERATURE,
        List.getLastD])).1⟩
  norm_num [WaterContainer.steam_volume, WaterContainer.water_volume,
    Water.volume, density_by_temperature, toCelsius,
    LinearInterpolationTable.get, DENSITY_BY_TEMPERATURE, List.getLastD]

/-! ## Incompressible short-circuit and mass conservation -/

/-- Claim C5: when the steam volume is ≤ 0, one `evaporate_condensate()`
call merges all vapor into the liquid (summed mass, mass-weighted
temperature when the total is positive) and zeroes the vapor, and the
result is reached without running either bisection. -/
theorem incompressible_short_circuit (c : WaterContainer)
    (h : c.steam_volume ≤ 0) :
    c.evaporate_condensate =
      some { c with water := c.water + c.steam, steam := Water.zero } ∧
    (c.water + c.steam).mass = c.water.mass + c.steam.mass ∧
    Water.zero.mass = 0 ∧
    (0 < c.water.mass + c.steam.mass →
      (c.water + c.steam).temperature =
        (c.water.mass * c.water.temperature + c.steam.mass * c.steam.temperature) /
          (c.water.mass + c.steam.mass)) := by
  refine ⟨?_, Water.mass_add c.water c.steam, rfl, ?_⟩
  · simp only [WaterContainer.evaporate_condensate]
    rw [if_pos h]
  · intro hm
    rw [Water.temperature_add, if_pos hm]

/-- Witness for C5: a 1 m³ container holding 100 kg of water at 2500 K
(volume 2000/417 m³ > 1 m³, so the steam volume is negative) and 1 kg of
steam at 400 K. -/
theorem incompressible_short_circuit_witness :
    (⟨1, 0, ⟨100, 2500⟩, ⟨1, 400⟩⟩ : WaterContainer).evaporate_condensate =
      some { (⟨1, 0, ⟨100, 2500⟩, ⟨1, 400⟩⟩ : WaterContainer) with
        water := (⟨100, 2500⟩ : Water) + ⟨1, 400⟩, steam := Water.zero } := by
  exact (incompressible_short_circuit _ (by
    norm_num [WaterContainer.steam_volume, WaterContainer.water_volume,
      Water.volume, density_by_temperature, toCelsius,
      LinearInterpolationTable.get, DENSITY_BY_TEMPERATURE, List.getLastD])).1

/-- Mass conservation of `simultaneous_mass_exchange`: whenever it succeeds,
the total mass of the two bodies is unchanged. -/
lemma simultaneous_mass_exchange_mass (a b : Water) (o i : ℚ) (w s : Water)
    (h : a.simultaneous_mass_exchange b o i = some (w, s)) :
    w.mass + s.mass = a.mass + b.mass := by
  unfold Water.simultaneous_mass_exchange Water.remove at h
  by_cases ho : o ≤ a.mass
  · by_cases hi : i ≤ b.mass
    · rw [if_pos ho, if_pos hi] at h
      obtain ⟨hw, hs⟩ := Prod.mk.injEq .. ▸ Option.some.inj h
      rw [← hw, ← hs, Water.mass_add, Water.mass_add]
      show a.mass - o + i + (b.mass - i + o) = a.mass + b.mass
      ring
    · rw [if_pos ho, if_neg hi] at h
      cases h
  · rw [if_neg ho] at h
    cases h

/-- One `evaporate_condensate()` step conserves the total mass whenever it
returns a container. -/
lemma evaporate_condensate_mass_aux (c c' : WaterContainer)
    (h : c.evaporate_condensate = some c') :
    c'.water.mass + c'.steam.mass = c.water.mass + c.steam.mass := by
  simp only [WaterContainer.evaporate_condensate] at h
  by_cases hsv : c.steam_volume ≤ 0
  · rw [if_pos hsv] at h
    obtain rfl := Option.some.inj h
    show (c.water + c.steam).mass + Water.zero.mass = _
    rw [Water.mass_add]
    show c.water.mass + c.steam.mass + 0 = _
    ring
  · rw [if_neg hsv] at h
    split at h
    · cases h
    · split at h
      · cases h
      · split at h
        · cases h
        · rename_i water' steam' heq
          obtain rfl := Option.some.inj h
          exact simultaneous_mass_exchange_mass _ _ _ _ _ _ heq

/-- Claim C1: every `evaporate_condensate()` call that returns leaves the
total mass `liquid.mass + vapor.mass` unchanged, and hence the total is
invariant across any number of such calls. -/
theorem evaporate_condensate_mass_conservation :
    (∀ c c' : WaterContainer, c.evaporate_condensate = some c' →
      c'.water.mass + c'.steam.mass = c.water.mass + c.steam.mass) ∧
    (∀ (n : Nat) (c c' : WaterContainer),
      WaterContainer.iterate_evaporate_condensate n c = some c' →
      c'.water.mass + c'.steam.mass = c.water.mass + c.steam.mass) := by
  refine ⟨evaporate_condensate_mass_aux, ?_⟩
  intro n
  induction n with
  | zero =>
    intro c c' h
    obtain rfl := Option.some.inj h
    rfl
  | succ n ih =>
    intro c c' h
    rw [WaterContainer.iterate_evaporate_condensate] at h
    rcases h1 : c.evaporate_condensate with _ | c1
    · rw [h1] at h
      cases h
    · rw [h1, Option.some_bind] at h
      rw [ih c1 c' h]
      exact evaporate_condensate_mass_aux c c1 h1

/-- Witness for C1: the concrete overfull container of the short-circuit
branch, with the mass totals before and after one step both equal to 101 kg,
and two iterated steps from the same start. -/
theorem evaporate_condensate_mass_conservation_witness :
    (({ (⟨1, 0, ⟨100, 2500⟩, ⟨1, 400⟩⟩ : WaterContainer) with
        water := (⟨100, 2500⟩ : Water) + ⟨1, 400⟩,
        steam := Water.zero } : WaterContainer).water.mass +
      ({ (⟨1, 0, ⟨100, 2500⟩, ⟨1, 400⟩⟩ : WaterContainer) with
        water := (⟨100, 2500⟩ : Water) + ⟨1, 400⟩,
        steam := Water.zero } : WaterContainer).steam.mass =
      (⟨1, 0, ⟨100, 2500⟩, ⟨1, 400⟩⟩ : WaterContainer).water.mass +
      (⟨1, 0, ⟨100, 2500⟩, ⟨1, 400⟩⟩ : WaterContainer).steam.mass) := by
  refine evaporate_condensate_mass_conservation.1 _ _ ?_
  norm_num [WaterContainer.evaporate_condensate, WaterContainer.steam_volume,
    WaterContainer.water_volume, Water.volume, density_by_temperature,
    toCelsius, LinearInterpolationTable.get, DENSITY_BY_TEMPERATURE,
    List.getLastD]

/-! ## Totality of the bisection search -/

lemma bisectionTolerance_pos : (0 : ℚ) < bisectionTolerance := by
  norm_num [bisectionTolerance]

lemma water_evaporate_isSome (w : Water) (m : ℚ) (h0 : 0 ≤ m)
    (h1 : m ≤ w.mass) : ∃ p, w.evaporate m = some p := by
  simp only [Water.evaporate]
  rw [if_pos ⟨h0, h1⟩]
  split_ifs with ht
  · exact ⟨_, rfl⟩
  · simp only [Water.subEnergy, Water.addEnergy, Water.subMass]
    rw [if_pos h1]
    exact ⟨_, rfl⟩

lemma water_condensate_isSome (w : Water) (m : ℚ) (h0 : 0 ≤ m)
    (h1 : m ≤ w.mass) : ∃ p, w.condensate m = some p := by
  simp only [Water.condensate]
  rw [if_pos ⟨h0, h1⟩]
  simp only [Water.addEnergy, Water.subMass]
  rw [if_pos h1]
  exact ⟨_, rfl⟩

lemma container_evaporate_isSome (c : WaterContainer) (m : ℚ) (h0 : 0 ≤ m)
    (h1 : m ≤ c.water.mass) : ∃ r, c.evaporate m = some r := by
  simp only [WaterContainer.evaporate]
  rw [if_pos ⟨h0, h1⟩]
  obtain ⟨⟨w', res⟩, hp⟩ := water_evaporate_isSome c.water m h0 h1
  rw [hp]
  cases res
  · exact ⟨_, rfl⟩
  · exact ⟨_, rfl⟩

lemma container_condensate_isSome (c : WaterContainer) (m : ℚ) (h0 : 0 ≤ m)
    (h1 : m ≤ c.steam.mass) : ∃ r, c.condensate m = some r := by
  simp only [WaterContainer.condensate]
  rw [if_pos ⟨h0, h1⟩]
  obtain ⟨⟨s', aw⟩, hp⟩ := water_condensate_isSome c.steam m h0 h1
  rw [hp]
  exact ⟨_, rfl⟩

lemma evapTest_isSome (c : WaterContainer) (m : ℚ) (h0 : 0 ≤ m)
    (h1 : m ≤ c.water.mass) : (evapTest c m).isSome = true := by
  obtain ⟨r, hr⟩ := container_evaporate_isSome c m h0 h1
  simp only [evapTest]
  rw [hr]
  cases r
  · rfl
  · rfl

lemma condTest_isSome (c : WaterContainer) (m : ℚ) (h0 : 0 ≤ m)
    (h1 : m ≤ c.steam.mass) : (condTest c m).isSome = true := by
  obtain ⟨r, hr⟩ := container_condensate_isSome c m h0 h1
  simp only [condTest]
  rw [hr]
  rfl

lemma sufficientFuel_spec (w : ℚ) (h : 0 ≤ w) :
    w ≤ bisectionTolerance * 2 ^ sufficientFuel w := by
  have htol := bisectionTolerance_pos
  set q := w / bisectionTolerance with hqdef
  have hq0 : 0 ≤ q := div_nonneg h htol.le
  have hw : w = bisectionTolerance * q := by
    rw [hqdef, mul_div_cancel₀]
    exact ne_of_gt htol
  have hnum0 : 0 ≤ q.num := Rat.num_nonneg.mpr hq0
  have h1 : q ≤ (q.num : ℚ) := by
    conv_lhs => rw [← Rat.num_div_den q]
    exact div_le_self (by exact_mod_cast hnum0) (by exact_mod_cast q.pos)
  have h2 : ((q.num.toNat : ℕ) : ℚ) = (q.num : ℚ) := by
    exact_mod_cast congrArg Int.cast (Int.toNat_of_nonneg hnum0)
  have h3 : ((q.num.toNat : ℕ) : ℚ) ≤ 2 ^ (q.num.toNat + 1) := by
    have hlt := Nat.lt_two_pow q.num.toNat
    have : (q.num.toNat : ℚ) ≤ ((2 ^ q.num.toNat : ℕ) : ℚ) := by
      exact_mod_cast hlt.le
    calc ((q.num.toNat : ℕ) : ℚ) ≤ ((2 ^ q.num.toNat : ℕ) : ℚ) := this
      _ = 2 ^ q.num.toNat := by push_cast; ring
      _ ≤ 2 ^ (q.num.toNat + 1) := by
          apply pow_le_pow_right₀ (by norm_num)
          exact Nat.le_succ _
  have hq2 : q ≤ 2 ^ (q.num.toNat + 1) := le_trans h1 (h2 ▸ h3)
  rw [sufficientFuel, ← hqdef]
  calc w = bisectionTolerance * q := hw
    _ ≤ bisectionTolerance * 2 ^ (q.num.toNat + 1) :=
        mul_le_mul_of_nonneg_left hq2 htol.le

/-- The bisection loop, given enough fuel for its starting width and a trial
that cannot panic on the interval, returns a subinterval of the starting
interval whose width is within the convergence tolerance. -/
lemma bisectLoop_some (test : ℚ → Option Bool) :
    ∀ (n : Nat) (l r : ℚ), l ≤ r → r - l ≤ bisectionTolerance * 2 ^ n →
      (∀ m, l ≤ m → m ≤ r → (test m).isSome = true) →
      ∃ l' r', bisectLoop test n l r = some (l', r') ∧ l ≤ l' ∧ l' ≤ r' ∧
        r' ≤ r ∧ r' - l' ≤ bisectionTolerance := by
  intro n
  induction n with
  | zero =>
    intro l r hlr hw _
    rw [pow_zero, mul_one] at hw
    rw [bisectLoop, if_neg (not_lt.mpr hw)]
    exact ⟨l, r, rfl, le_refl l, hlr, le_refl r, hw⟩
  | succ n ih =>
    intro l r hlr hw htest
    by_cases hcond : bisectionTolerance < r - l
    · have htol := bisectionTolerance_pos
      have hlr' : l < r := by linarith
      have hmidl : l ≤ (r + l) / 2 := by linarith
      have hmidr : (r + l) / 2 ≤ r := by linarith
      have hwhalf : (r - l) / 2 ≤ bisectionTolerance * 2 ^ n := by
        rw [pow_succ] at hw
        linarith
      rw [bisectLoop, if_pos hcond, if_pos hlr']
      have hts := htest ((r + l) / 2) hmidl hmidr
      rcases htm : test ((r + l) / 2) with _ | b
      · rw [htm] at hts
        cases hts
      · cases b
        · obtain ⟨l', r', heq, h1, h2, h3, h4⟩ :=
            ih l ((r + l) / 2) hmidl (by linarith)
              (fun m hm1 hm2 => htest m hm1 (le_trans hm2 hmidr))
          exact ⟨l', r', heq, h1, h2, le_trans h3 hmidr, h4⟩
        · obtain ⟨l', r', heq, h1, h2, h3, h4⟩ :=
            ih ((r + l) / 2) r hmidr (by linarith)
              (fun m hm1 hm2 => htest m (le_trans hmidl hm1) hm2)
          exact ⟨l', r', heq, le_trans hmidl h1, h2, h3, h4⟩
    · rw [bisectLoop, if_neg hcond]
      exact ⟨l, r, rfl, le_refl l, hlr, le_refl r, not_lt.mp hcond⟩

lemma simultaneous_mass_exchange_isSome (a b : Water) (o i : ℚ)
    (ho : o ≤ a.mass) (hi : i ≤ b.mass) :
    ∃ p, a.simultaneous_mass_exchange b o i = some p := by
  simp only [Water.simultaneous_mass_exchange, Water.remove]
  rw [if_pos ho, if_pos hi]
  exact ⟨_, rfl⟩

/-- Claim C2: for any container state with non-negative phase masses,
`evaporate_condensate()` returns normally; in particular the
`NonPositiveTemperature` error produced by a trial evaporation is absorbed
inside the bisection (`evapTest` maps it to a search signal) and the
function's result type carries no error at all. -/
theorem evaporate_condensate_total (c : WaterContainer)
    (hw : 0 ≤ c.water.mass) (hs : 0 ≤ c.steam.mass) :
    ∃ c', c.evaporate_condensate = some c' := by
  by_cases hsv : c.steam_volume ≤ 0
  · refine ⟨{ c with water := c.water + c.steam, steam := Water.zero }, ?_⟩
    simp only [WaterContainer.evaporate_condensate]
    rw [if_pos hsv]
  · simp only [WaterContainer.evaporate_condensate]
    rw [if_neg hsv]
    set eb := min (max ((c.water.saturation_pressure - c.pressure) * c.steam_volume /
      (SPECIAL_IDEAL_GAS_CONSTANT * c.water.temperature)) 0) c.water.mass with hebdef
    set sb := min (max ((c.pressure - c.steam.saturation_pressure) * c.steam_volume /
      (SPECIAL_IDEAL_GAS_CONSTANT * c.steam.temperature)) 0) c.steam.mass with hsbdef
    have heb0 : 0 ≤ eb := le_min (le_max_right _ _) hw
    have heb1 : eb ≤ c.water.mass := min_le_right _ _
    have hsb0 : 0 ≤ sb := le_min (le_max_right _ _) hs
    have hsb1 : sb ≤ c.steam.mass := min_le_right _ _
    obtain ⟨l, r, hloop1, hl0, hlr, hr1, _⟩ :=
      bisectLoop_some (evapTest c) (sufficientFuel eb) 0 eb heb0
        (by simpa using sufficientFuel_spec eb heb0)
        (fun m hm0 hm1 => evapTest_isSome c m hm0 (le_trans hm1 heb1))
    obtain ⟨l', r', hloop2, hl0', hlr', hr1', _⟩ :=
      bisectLoop_some (condTest c) (sufficientFuel sb) 0 sb hsb0
        (by simpa using sufficientFuel_spec sb hsb0)
        (fun m hm0 hm1 => condTest_isSome c m hm0 (le_trans hm1 hsb1))
    obtain ⟨⟨w', s'⟩, hsme⟩ := simultaneous_mass_exchange_isSome c.water c.steam
      ((r + l) / 2) ((r' + l') / 2) (by linarith) (by linarith)
    simp only [hloop1, hloop2, hsme]
    exact ⟨_, rfl⟩

/-- Witness for C2: a 1 m³ container with 1 kg of water at 100 K and 10 g of
steam at 473.15 K; here both linearised bounds clamp to zero and the step
returns normally. -/
theorem evaporate_condensate_total_witness :
    ∃ c', WaterContainer.evaporate_condensate ⟨1, 0, ⟨1, 100⟩, ⟨1/100, 47315/100⟩⟩ =
      some c' :=
  evaporate_condensate_total _ (by norm_num) (by norm_num)

/-- One looping iteration of the bisection replaces an endpoint by the
midpoint (provided the trial does not panic). -/
lemma bisectLoop_step (test : ℚ → Option Bool) (n : Nat) (l r : ℚ)
    (hcond : bisectionTolerance < r - l)
    (hts : (test ((r + l) / 2)).isSome = true) :
    bisectLoop test (n + 1) l r = bisectLoop test n ((r + l) / 2) r ∨
    bisectLoop test (n + 1) l r = bisectLoop test n l ((r + l) / 2) := by
  have htol := bisectionTolerance_pos
  have hlr' : l < r := by linarith
  rw [bisectLoop, if_pos hcond, if_pos hlr']
  rcases htm : test ((r + l) / 2) with _ | b
  · rw [htm] at hts
    cases hts
  · cases b
    · exact Or.inr rfl
    · exact Or.inl rfl

/-- Claim C7: both bisection loops of `evaporate_condensate()` terminate:
while the interval is wider than the 1e-10 kg tolerance, every iteration
replaces one endpoint with the midpoint `(right + left) / 2`, halving the
width, and from any finite starting interval `[0, upper_bound]` the loop
reaches an interval within the tolerance (the provided fuel is never
exhausted). -/
theorem bisection_loops_terminate :
    (∀ (c : WaterContainer) (n : Nat) (l r : ℚ), 0 ≤ l → r ≤ c.water.mass →
      bisectionTolerance < r - l →
      ((bisectLoop (evapTest c) (n + 1) l r = bisectLoop (evapTest c) n ((r + l) / 2) r ∨
        bisectLoop (evapTest c) (n + 1) l r = bisectLoop (evapTest c) n l ((r + l) / 2)) ∧
       r - (r + l) / 2 = (r - l) / 2 ∧ (r + l) / 2 - l = (r - l) / 2)) ∧
    (∀ (c : WaterContainer) (n : Nat) (l r : ℚ), 0 ≤ l → r ≤ c.steam.mass →
      bisectionTolerance < r - l →
      ((bisectLoop (condTest c) (n + 1) l r = bisectLoop (condTest c) n ((r + l) / 2) r ∨
        bisectLoop (condTest c) (n + 1) l r = bisectLoop (condTest c) n l ((r + l) / 2)) ∧
       r - (r + l) / 2 = (r - l) / 2 ∧ (r + l) / 2 - l = (r - l) / 2)) ∧
    (∀ (c : WaterContainer) (w : ℚ), 0 ≤ w → w ≤ c.water.mass →
      ∃ l r, bisectLoop (evapTest c) (sufficientFuel w) 0 w = some (l, r) ∧
        r - l ≤ bisectionTolerance) ∧
    (∀ (c : WaterContainer) (w : ℚ), 0 ≤ w → w ≤ c.steam.mass →
      ∃ l r, bisectLoop (condTest c) (sufficientFuel w) 0 w = some (l, r) ∧
        r - l ≤ bisectionTolerance) := by
  have htol := bisectionTolerance_pos
  refine ⟨?_, ?_, ?_, ?_⟩
  · intro c n l r h0 h1 hcond
    refine ⟨bisectLoop_step _ n l r hcond
      (evapTest_isSome c _ (by linarith) (by linarith)), by ring, by ring⟩
  · intro c n l r h0 h1 hcond
    refine ⟨bisectLoop_step _ n l r hcond
      (condTest_isSome c _ (by linarith) (by linarith)), by ring, by ring⟩
  · intro c w h0 h1
    obtain ⟨l, r, heq, _, _, _, hfin⟩ :=
      bisectLoop_some (evapTest c) (sufficientFuel w) 0 w h0
        (by simpa using sufficientFuel_spec w h0)
        (fun m hm0 hm1 => evapTest_isSome c m hm0 (le_trans hm1 h1))
    exact ⟨l, r, heq, hfin⟩
  · intro c w h0 h1
    obtain ⟨l, r, heq, _, _, _, hfin⟩ :=
      bisectLoop_some (condTest c) (sufficientFuel w) 0 w h0
        (by simpa using sufficientFuel_spec w h0)
        (fun m hm0 hm1 => condTest_isSome c m hm0 (le_trans hm1 h1))
    exact ⟨l, r, heq, hfin⟩

/-- Witness for C7 at a concrete container (1 kg water, 10 g steam): one
halving step of each loop on concrete intervals, and full convergence of
both loops from the zero-width starting interval. -/
theorem bisection_loops_terminate_witness :
    ((bisectLoop (evapTest ⟨1, 0, ⟨1, 100⟩, ⟨1/100, 47315/100⟩⟩) 1 0 1 =
        bisectLoop (evapTest ⟨1, 0, ⟨1, 100⟩, ⟨1/100, 47315/100⟩⟩) 0 ((1 + 0) / 2) 1 ∨
      bisectLoop (evapTest ⟨1, 0, ⟨1, 100⟩, ⟨1/100, 47315/100⟩⟩) 1 0 1 =
        bisectLoop (evapTest ⟨1, 0, ⟨1, 100⟩, ⟨1/100, 47315/100⟩⟩) 0 0 ((1 + 0) / 2)) ∧
     (1 : ℚ) - (1 + 0) / 2 = (1 - 0) / 2 ∧ ((1 : ℚ) + 0) / 2 - 0 = (1 - 0) / 2) ∧
    (∃ l r, bisectLoop (evapTest ⟨1, 0, ⟨1, 100⟩, ⟨1/100, 47315/100⟩⟩)
        (sufficientFuel 0) 0 0 = some (l, r) ∧ r - l ≤ bisectionTolerance) ∧
    (∃ l r, bisectLoop (condTest ⟨1, 0, ⟨1, 100⟩, ⟨1/100, 47315/100⟩⟩)
        (sufficientFuel (1/100)) 0 (1/100) = some (l, r) ∧
      r - l ≤ bisectionTolerance) := by
  refine ⟨bisection_loops_terminate.1 _ 0 0 1 (by norm_num) (by norm_num)
      (by norm_num [bisectionTolerance]),
    bisection_loops_terminate.2.2.1 _ 0 (by norm_num) (by norm_num),
    bisection_loops_terminate.2.2.2 _ (1/100) (by norm_num) (by norm_num)⟩

/-! ## Correctness of the interpolation search on sorted keys -/

lemma countP_lt_sorted {keys : List ℚ} (hs : keys.Pairwise (· < ·)) :
    ∀ (i : Nat) (k : ℚ), keys.get? i = some k →
      keys.countP (fun a => decide (a < k)) = i := by
  induction keys with
  | nil =>
    intro i k h
    cases h
  | cons a as ih =>
    intro i k h
    obtain ⟨ha, has⟩ := List.pairwise_cons.mp hs
    cases i with
    | zero =>
      obtain rfl := Option.some.inj h
      rw [List.countP_cons]
      have h1 : as.countP (fun b => decide (b < a)) = 0 :=
        List.countP_eq_zero.mpr (fun b hb => by
          simp only [decide_eq_true_eq]
          exact not_lt.mpr (ha b hb).le)
      simp [h1]
    | succ j =>
      have hk : a < k := ha k (List.get?_mem h)
      rw [List.countP_cons, ih has j k h]
      simp [hk]

lemma countP_between {keys : List ℚ} (hs : keys.Pairwise (· < ·)) :
    ∀ (i : Nat) (k1 k2 x : ℚ), keys.get? i = some k1 →
      keys.get? (i + 1) = some k2 → k1 < x → x < k2 →
      keys.countP (fun a => decide (a < x)) = i + 1 := by
  induction keys with
  | nil =>
    intro i k1 k2 x h1 h2 hx1 hx2
    cases h1
  | cons a as ih =>
    intro i k1 k2 x h1 h2 hx1 hx2
    obtain ⟨ha, has⟩ := List.pairwise_cons.mp hs
    cases i with
    | zero =>
      obtain rfl := Option.some.inj h1
      rw [List.countP_cons]
      have h0 : as.countP (fun b => decide (b < x)) = 0 := by
        apply List.countP_eq_zero.mpr
        intro b hb
        simp only [decide_eq_true_eq]
        rcases as with _ | ⟨a2, as2⟩
        · cases h2
        · obtain rfl := Option.some.inj h2
          obtain ⟨ha2, _⟩ := List.pairwise_cons.mp has
          rcases List.mem_cons.mp hb with rfl | hb'
          · exact not_lt.mpr hx2.le
          · exact not_lt.mpr (le_trans hx2.le (ha2 b hb').le)
      simp [h0, hx1]
    | succ j =>
      have hk : a < x := lt_trans (ha k1 (List.get?_mem h1)) hx1
      rw [List.countP_cons, ih has j k1 k2 x h1 h2 hx1 hx2]
      simp [hk]

lemma searchSorted_exact {keys : List ℚ} (hs : keys.Pairwise (· < ·))
    (i : Nat) (k : ℚ) (h : keys.get? i = some k) :
    searchSorted keys k = .ok i := by
  have h' : keys[i]? = some k := by
    rw [← List.get?_eq_getElem?]
    exact h
  simp only [searchSorted]
  rw [countP_lt_sorted hs i k h]
  simp [h']

lemma searchSorted_between {keys : List ℚ} (hs : keys.Pairwise (· < ·))
    (i : Nat) (k1 k2 x : ℚ) (h1 : keys.get? i = some k1)
    (h2 : keys.get? (i + 1) = some k2) (hx1 : k1 < x) (hx2 : x < k2) :
    searchSorted keys x = .error (i + 1) := by
  have h2' : keys[i + 1]? = some k2 := by
    rw [← List.get?_eq_getElem?]
    exact h2
  simp only [searchSorted]
  rw [countP_between hs i k1 k2 x h1 h2 hx1 hx2]
  simp [h2', ne_of_gt hx2]

lemma interpolateSearch_exact (tab : List (ℚ × ℚ))
    (hs : (tab.map Prod.fst).Pairwise (· < ·)) (i : Nat) (k v : ℚ)
    (h : tab.get? i = some (k, v)) : interpolateSearch tab k = some v := by
  have hk : (tab.map Prod.fst).get? i = some k := by
    rw [List.get?_map, h]
    rfl
  have h' : tab[i]? = some (k, v) := by
    rw [← List.get?_eq_getElem?]
    exact h
  simp only [interpolateSearch]
  rw [searchSorted_exact hs i k hk]
  simp [h']

lemma interpolateSearch_between (tab : List (ℚ × ℚ))
    (hs : (tab.map Prod.fst).Pairwise (· < ·)) (i : Nat) (k1 v1 k2 v2 x : ℚ)
    (h1 : tab.get? i = some (k1, v1)) (h2 : tab.get? (i + 1) = some (k2, v2))
    (hx1 : k1 < x) (hx2 : x < k2) :
    interpolateSearch tab x =
      some (((k2 - x) * v1 + (x - k1) * v2) / (k2 - k1)) := by
  have hk1 : (tab.map Prod.fst).get? i = some k1 := by
    rw [List.get?_map, h1]
    rfl
  have hk2 : (tab.map Prod.fst).get? (i + 1) = some k2 := by
    rw [List.get?_map, h2]
    rfl
  have hlen : i + 1 < tab.length := by
    obtain ⟨hl, _⟩ := List.get?_eq_some.mp h2
    exact hl
  have h1' : tab[i]? = some (k1, v1) := by
    rw [← List.get?_eq_getElem?]
    exact h1
  have h2' : tab[i + 1]? = some (k2, v2) := by
    rw [← List.get?_eq_getElem?]
    exact h2
  simp only [interpolateSearch]
  rw [searchSorted_between hs i k1 k2 x hk1 hk2 hx1 hx2]
  simp [hlen, h1', h2']

lemma getLastD_get? {α : Type _} (rest : List α) :
    ∀ first : α, (first :: rest).get? ((first :: rest).length - 1) =
      some (rest.getLastD first) := by
  induction rest with
  | nil =>
    intro first
    rfl
  | cons b bs ih =>
    intro first
    rw [List.getLastD_cons]
    exact ih b

lemma sorted_get_le {keys : List ℚ} (hs : keys.Pairwise (· < ·))
    {i j : Nat} {a b : ℚ} (hij : i ≤ j) (ha : keys.get? i = some a)
    (hb : keys.get? j = some b) : a ≤ b := by
  obtain ⟨hi, rfl⟩ := List.get?_eq_some.mp ha
  obtain ⟨hj, rfl⟩ := List.get?_eq_some.mp hb
  rcases Nat.lt_or_ge i j with hlt | hge
  · exact (List.pairwise_iff_get.mp hs ⟨i, hi⟩ ⟨j, hj⟩ hlt).le
  · have hij' : i = j := le_antisymm hij hge
    subst hij'
    rfl

/-- The table of the repository's own unit test,
`[(0.0, 1.0), (2.0, 2.0), (3.0, 0.0)]` under `Clamp`. -/
def exampleTable : LinearInterpolationTable := ⟨.clamp, [(0, 1), (2, 2), (3, 0)]⟩

/-- Claim C6: on a table with strictly increasing keys under `Clamp`,
`get(x)` clamps to the first value below the least key and to the last value
above the greatest key; an exact key match returns that key's stored value;
strictly between two adjacent keys it returns
`((x2 - x)*y1 + (x - x1)*y2) / (x2 - x1)`; and on the test table
`[(0,1),(2,2),(3,0)]` it gives `get(1.0)=1.5`, `get(2.5)=1.0`,
`get(0.5)=1.25`. -/
theorem interpolation_table_get_spec :
    (∀ (t : LinearInterpolationTable) (x : ℚ) (first : ℚ × ℚ)
       (rest : List (ℚ × ℚ)),
      t.table = first :: rest →
      (t.table.map Prod.fst).Chain' (· < ·) →
      t.limitBehaviour = .clamp →
      ((x < first.1 → t.get x = some first.2) ∧
       ((rest.getLastD first).1 < x → t.get x = some (rest.getLastD first).2) ∧
       (∀ (i : Nat) (k v : ℚ), t.table.get? i = some (k, v) →
         t.get k = some v) ∧
       (∀ (i : Nat) (k1 v1 k2 v2 : ℚ), t.table.get? i = some (k1, v1) →
         t.table.get? (i + 1) = some (k2, v2) → k1 < x → x < k2 →
         t.get x = some (((k2 - x) * v1 + (x - k1) * v2) / (k2 - k1))))) ∧
    (exampleTable.get 1 = some (3/2) ∧ exampleTable.get (5/2) = some 1 ∧
     exampleTable.get (1/2) = some (5/4)) := by
  constructor
  · intro t x first rest ht hchain hlb
    have hs : (t.table.map Prod.fst).Pairwise (· < ·) :=
      List.chain'_iff_pairwise.mp hchain
    have hfirst : t.table.get? 0 = some first := by
      rw [ht]
      rfl
    have hkey0 : (t.table.map Prod.fst).get? 0 = some first.1 := by
      rw [List.get?_map, hfirst]
      rfl
    have hlast : t.table.get? (t.table.length - 1) = some (rest.getLastD first) := by
      rw [ht]
      exact getLastD_get? rest first
    have hkeylast : (t.table.map Prod.fst).get? (t.table.length - 1) =
        some (rest.getLastD first).1 := by
      rw [List.get?_map, hlast]
      rfl
    refine ⟨?_, ?_, ?_, ?_⟩
    · intro hx
      simp only [LinearInterpolationTable.get, ht, hlb]
      rw [if_pos hx]
    · intro hx
      simp only [LinearInterpolationTable.get, ht, hlb]
      have hx' : ¬ x < first.1 := by
        have h01 : first.1 ≤ (rest.getLastD first).1 :=
          sorted_get_le hs (Nat.zero_le _) hkey0 hkeylast
        exact not_lt.mpr (le_trans h01 hx.le)
      rw [if_neg hx', if_pos hx]
    · intro i k v h
      have hkeyi : (t.table.map Prod.fst).get? i = some k := by
        rw [List.get?_map, h]
        rfl
      have hi : i < t.table.length := by
        have := List.get?_eq_some.mp h
        exact this.1
      have hile : i ≤ t.table.length - 1 := Nat.le_sub_one_of_lt hi
      have hlow : first.1 ≤ k := sorted_get_le hs (Nat.zero_le _) hkey0 hkeyi
      have hhigh : k ≤ (rest.getLastD first).1 :=
        sorted_get_le hs hile hkeyi hkeylast
      simp only [LinearInterpolationTable.get, ht, hlb]
      rw [if_neg (not_lt.mpr hlow), if_neg (not_lt.mpr hhigh), ← ht]
      exact interpolateSearch_exact t.table hs i k v h
    · intro i k1 v1 k2 v2 h1 h2 hx1 hx2
      have hkey1 : (t.table.map Prod.fst).get? i = some k1 := by
        rw [List.get?_map, h1]
        rfl
      have hkey2 : (t.table.map Prod.fst).get? (i + 1) = some k2 := by
        rw [List.get?_map, h2]
        rfl
      have hi2 : i + 1 < t.table.length := (List.get?_eq_some.mp h2).1
      have hile : i + 1 ≤ t.table.length - 1 := Nat.le_sub_one_of_lt hi2
      have hlow : first.1 ≤ k1 := sorted_get_le hs (Nat.zero_le _) hkey0 hkey1
      have hhigh : k2 ≤ (rest.getLastD first).1 :=
        sorted_get_le hs hile hkey2 hkeylast
      simp only [LinearInterpolationTable.get, ht, hlb]
      rw [if_neg (not_lt.mpr (le_trans hlow hx1.le)),
        if_neg (not_lt.mpr (le_trans hx2.le hhigh)), ← ht]
      exact interpolateSearch_between t.table hs i k1 v1 k2 v2 x h1 h2 hx1 hx2
  · refine ⟨?_, ?_, ?_⟩
    · norm_num [exampleTable, LinearInterpolationTable.get, interpolateSearch,
        searchSorted, List.getLastD, List.countP_cons]
    · norm_num [exampleTable, LinearInterpolationTable.get, interpolateSearch,
        searchSorted, List.getLastD, List.countP_cons]
    · norm_num [exampleTable, LinearInterpolationTable.get, interpolateSearch,
        searchSorted, List.getLastD, List.countP_cons]

/-- Witness for C6 on the test table: clamping on both sides, an exact match
and one interior bracket. -/
theorem interpolation_table_get_spec_witness :
    exampleTable.get (-1) = some 1 ∧
    exampleTable.get 5 = some 0 ∧
    exampleTable.get 2 = some 2 ∧
    exampleTable.get (3/2) = some (((2 - 3/2) * 1 + (3/2 - 0) * 2) / (2 - 0)) := by
  have h := interpolation_table_get_spec.1
  have hchain : (exampleTable.table.map Prod.fst).Chain' (· < ·) := by
    show List.Chain' (· < ·) [(0 : ℚ), 2, 3]
    norm_num [List.chain'_cons]
  refine ⟨?_, ?_, ?_, ?_⟩
  · exact (h exampleTable (-1) (0, 1) [(2, 2), (3, 0)] rfl hchain rfl).1
      (by norm_num)
  · exact (h exampleTable 5 (0, 1) [(2, 2), (3, 0)] rfl hchain rfl).2.1
      (by show (3 : ℚ) < 5; norm_num)
  · exact (h exampleTable 2 (0, 1) [(2, 2), (3, 0)] rfl hchain rfl).2.2.1
      1 2 2 rfl
  · exact (h exampleTable (3/2) (0, 1) [(2, 2), (3, 0)] rfl hchain rfl).2.2.2
      0 0 1 2 2 rfl rfl (by norm_num) (by norm_num)
